import Mathlib

/-!
Verification of the ingestion-and-enrichment pipeline of the
Shipping-a-Data-Product repository: the raw loader
(scripts/load_raw_to_pg.py), the detection classifier and enrichment loop
(src/yolo_detect.py), and the stage orchestration (scripts/pipeline.py),
shallowly embedded in Lean 4.
-/

/- ──────────────────────────────────────────────────────────────────────
   src/yolo_detect.py
   ────────────────────────────────────────────────────────────────────── -/

/-- One YOLO detection, the list `[x1, y1, x2, y2, conf, class_id]` returned
by `results[0].boxes.data.tolist()`.  The numeric entries are floats in the
source; they are embedded as rationals, which is faithful for this program
because the only numeric operation applied to them is truncation to an
integer (`int(d[5])`). -/
structure Detection where
  x1 : ℚ
  y1 : ℚ
  x2 : ℚ
  y2 : ℚ
  conf : ℚ
  cls : ℚ
deriving DecidableEq

/-- Python `int(q)`: truncation toward zero. -/
def pyInt (q : ℚ) : ℤ := if 0 ≤ q then ⌊q⌋ else ⌈q⌉

/-- `has_person = any(int(d[5]) == 0 for d in detections)`
(yolo_detect.py line 13). -/
def has_person (detections : List Detection) : Bool :=
  detections.any fun d => pyInt d.cls == 0

/-- `has_product = any(int(d[5]) in [39, 41] for d in detections)`
(yolo_detect.py line 14). -/
def has_product (detections : List Detection) : Bool :=
  detections.any fun d => pyInt d.cls == 39 || pyInt d.cls == 41

/-- The classification logic of `detect_and_classify`
(yolo_detect.py lines 13 to 24), factored over the detection list. -/
def classify_label (detections : List Detection) : String :=
  if has_person detections && has_product detections then "promotional"
  else if has_product detections then "product_display"
  else if has_person detections then "lifestyle"
  else "other"

/-- `detect_and_classify(image_path)` (yolo_detect.py lines 8 to 24).
The external YOLO model call `model(image_path)` is a parameter: it either
raises (embedded as `Except.error`) or yields the detection list.  On
success the function returns the label together with the unmodified
detection list. -/
def detect_and_classify (model : String → Except Unit (List Detection))
    (image_path : String) : Except Unit (String × List Detection) :=
  match model image_path with
  | .error e => .error e
  | .ok detections => .ok (classify_label detections, detections)

/-- One CSV row appended per retained detection
(yolo_detect.py lines 38 to 44). -/
structure DetectionRow where
  message_id : String
  channel_name : String
  detected_class : String
  confidence_score : ℚ
  image_category : String
deriving DecidableEq

/-- `msg_id = img_name.split('.')[0]` (yolo_detect.py line 33). -/
def msgIdOf (img_name : String) : String :=
  ((img_name.splitOn ".").headD "")

/-- `os.path.join(image_root, channel, img_name)` with
`image_root = 'data/raw/images/'` (yolo_detect.py lines 28, 31, 34). -/
def img_path (channel img_name : String) : String :=
  "data/raw/images/" ++ channel ++ "/" ++ img_name

/-- The rows appended to `data` for one image: one per detection hit, with
`detected_class = model.names[int(hit[5])]`, `confidence_score = hit[4]`
and the image-level `image_category` (yolo_detect.py lines 38 to 44).
`names` is the external class-name table of the model. -/
def imageRows (names : ℤ → String) (channel img_name category : String)
    (hits : List Detection) : List DetectionRow :=
  hits.map fun hit =>
    { message_id := msgIdOf img_name
      channel_name := channel
      detected_class := names (pyInt hit.cls)
      confidence_score := hit.conf
      image_category := category }

/-- The enrichment output contributed by one image: call
`detect_and_classify` on its path and emit one row per hit
(yolo_detect.py lines 34 to 44).  A raised detection error propagates. -/
def imageContribution (model : String → Except Unit (List Detection))
    (names : ℤ → String) (channel img_name : String) :
    Except Unit (List DetectionRow) :=
  match detect_and_classify model (img_path channel img_name) with
  | .error e => .error e
  | .ok (category, raw_hits) =>
      .ok (imageRows names channel img_name category raw_hits)

/-- The inner loop over the images of one channel
(yolo_detect.py lines 31 to 44).  The source has no exception handling
here, so an error from any image aborts the whole traversal. -/
def enrichImages (model : String → Except Unit (List Detection))
    (names : ℤ → String) (channel : String) :
    List String → Except Unit (List DetectionRow)
  | [] => .ok []
  | img :: rest =>
      match imageContribution model names channel img with
      | .error e => .error e
      | .ok rows =>
          match enrichImages model names channel rest with
          | .error e => .error e
          | .ok more => .ok (rows ++ more)

/-- The outer loop over channels (yolo_detect.py lines 29 to 44): the
directory listing is a list of channels, each with its image file names.
No exception handling, so any per-image error aborts the run. -/
def enrichRun (model : String → Except Unit (List Detection))
    (names : ℤ → String) :
    List (String × List String) → Except Unit (List DetectionRow)
  | [] => .ok []
  | (channel, imgs) :: rest =>
      match enrichImages model names channel imgs with
      | .error e => .error e
      | .ok rows =>
          match enrichRun model names rest with
          | .error e => .error e
          | .ok more => .ok (rows ++ more)


/- ──────────────────────────────────────────────────────────────────────
   scripts/load_raw_to_pg.py
   ────────────────────────────────────────────────────────────────────── -/

/-- A stored row of `raw.telegram_messages` (load_raw_to_pg.py lines 35
to 52): the canonical record fields plus `loaded_at`, which the store
assigns at write time.  Timestamps are embedded as naturals. -/
structure MessageRow where
  message_id : ℤ
  channel_username : String
  channel_title : Option String
  date : Option String
  text : Option String
  views : ℤ
  forwards : ℤ
  has_media : Bool
  image_path : Option String
  loaded_at : ℕ
deriving DecidableEq

/-- A canonical message record as bound to the INSERT parameters
(load_raw_to_pg.py lines 89 to 100): everything of a stored row except
`loaded_at`. -/
structure MessageRec where
  message_id : ℤ
  channel_username : String
  channel_title : Option String
  date : Option String
  text : Option String
  views : ℤ
  forwards : ℤ
  has_media : Bool
  image_path : Option String
deriving DecidableEq

/-- The composite natural key test: a stored row matches a record when
both `message_id` and `channel_username` agree (the PRIMARY KEY of
load_raw_to_pg.py line 50 and the ON CONFLICT target of line 94). -/
def sameKey (row : MessageRow) (r : MessageRec) : Bool :=
  row.message_id == r.message_id && row.channel_username == r.channel_username

/-- Construct the stored row for a record at write time `now`
(`loaded_at` defaults to the current timestamp, line 49). -/
def toRow (r : MessageRec) (now : ℕ) : MessageRow :=
  { message_id := r.message_id
    channel_username := r.channel_username
    channel_title := r.channel_title
    date := r.date
    text := r.text
    views := r.views
    forwards := r.forwards
    has_media := r.has_media
    image_path := r.image_path
    loaded_at := now }

/-- `INSERT ... ON CONFLICT (message_id, channel_username) DO NOTHING`
(load_raw_to_pg.py lines 89 to 100).  Returns the new store and the
`cur.rowcount > 0` flag: `false` when the key already exists (no row
written), `true` when the row was inserted with `loaded_at := now`. -/
def insertOnConflictDoNothing (store : List MessageRow) (r : MessageRec)
    (now : ℕ) : List MessageRow × Bool :=
  if store.any (fun row => sameKey row r) then (store, false)
  else (store ++ [toRow r now], true)

/-- The mutable state of one loader invocation: the store plus the
running `inserted` and `skipped` totals (load_raw_to_pg.py lines 55, 56). -/
structure LoadState where
  store : List MessageRow
  inserted : ℕ
  skipped : ℕ
deriving DecidableEq

/-- The write step for one normalized record (load_raw_to_pg.py lines 89
to 106): execute the conditional insert, then increment `inserted` when
`cur.rowcount > 0` and otherwise increment `skipped` (duplicate). -/
def upsertState (st : LoadState) (r : MessageRec) (now : ℕ) : LoadState :=
  let res := insertOnConflictDoNothing st.store r now
  if res.2 then { st with store := res.1, inserted := st.inserted + 1 }
  else { st with store := res.1, skipped := st.skipped + 1 }

/-- Number of stored rows carrying the key of record `r`. -/
def keyCount (store : List MessageRow) (r : MessageRec) : ℕ :=
  store.countP fun row => sameKey row r

/-- One raw JSON message object, with every field optional, as read by the
chain of `msg.get(...)` calls (load_raw_to_pg.py lines 77 to 85). -/
structure RawMsg where
  message_id : Option ℤ
  channel_name : Option String
  channel_title : Option String
  message_date : Option String
  message_text : Option String
  views : Option ℤ
  forwards : Option ℤ
  has_media : Option Bool
  image_path : Option String
deriving DecidableEq

/-- Processing of one raw record inside the per-message loop
(load_raw_to_pg.py lines 75 to 106): normalize the fields, `continue`
without any state change when `message_id` or `channel_name` is missing
(lines 86, 87), otherwise perform the conditional insert and bump the
matching counter. -/
def processRecord (st : LoadState) (now : ℕ) (msg : RawMsg) : LoadState :=
  match msg.message_id, msg.channel_name with
  | some m_id, some c_username =>
      upsertState st
        { message_id := m_id
          channel_username := c_username
          channel_title := msg.channel_title
          date := msg.message_date
          text := msg.message_text
          views := msg.views.getD 0
          forwards := msg.forwards.getD 0
          has_media := msg.has_media.getD false
          image_path := msg.image_path } now
  | _, _ => st

/-- The parse outcome of one input file: `json.load` either raises
`JSONDecodeError` or yields the message list (a single object is wrapped
into a one-element list by line 71 of load_raw_to_pg.py). -/
inductive FileContent where
  | invalid : FileContent
  | valid : List RawMsg → FileContent
deriving DecidableEq

/-- An input file: its name and its parse outcome. -/
structure FileInput where
  name : String
  content : FileContent
deriving DecidableEq

/-- The diagnostic printed for an unparsable file
(load_raw_to_pg.py line 117). -/
def invalidFileDiag (name : String) : String :=
  "  Skipping " ++ name ++ ": Invalid JSON format."

/-- Processing of one file (load_raw_to_pg.py lines 66 to 118): a file
whose content fails to parse is caught by the `except json.JSONDecodeError`
handler, leaving the state untouched and emitting one diagnostic; a parsed
file folds the per-message step over its records and is then committed. -/
def processFile (st : LoadState) (now : ℕ) (f : FileInput) :
    LoadState × List String :=
  match f.content with
  | .invalid => (st, [invalidFileDiag f.name])
  | .valid msgs => (msgs.foldl (fun s m => processRecord s now m) st, [])

/-- The loop over all input files (load_raw_to_pg.py lines 59 to 118),
returning the final state and the concatenated diagnostics. -/
def loadRun (st : LoadState) (now : ℕ) :
    List FileInput → LoadState × List String
  | [] => (st, [])
  | f :: fs =>
      let step := processFile st now f
      let rest := loadRun step.1 now fs
      (rest.1, step.2 ++ rest.2)

/-- Whether a file parsed. -/
def fileParsed (f : FileInput) : Bool :=
  match f.content with
  | .invalid => false
  | .valid _ => true


/- ──────────────────────────────────────────────────────────────────────
   scripts/pipeline.py
   ────────────────────────────────────────────────────────────────────── -/

/-- The retry policy configured for every op
(pipeline.py line 14): `RetryPolicy(max_retries=3, delay=60)`. -/
structure RetryPolicy where
  max_retries : ℕ
  delay : ℕ
deriving DecidableEq

/-- `standard_retry = RetryPolicy(max_retries=3, delay=60)`
(pipeline.py line 14). -/
def standard_retry : RetryPolicy := ⟨3, 60⟩

/-- Terminal outcome of one stage execution. -/
inductive StageOutcome where
  | succeeded : StageOutcome
  | failed : StageOutcome
deriving DecidableEq

/-- Modelled from the spec: the Stage Runner execution loop lives in the
orchestration framework, not under this repository source; the repository
only configures `standard_retry` for each op.  Per the spec, the runner
executes the external action and on failure retries up to `max_attempts`
total attempts, waiting a fixed `backoff_delay` between consecutive
attempts.  `action t` is the external action invoked at time `t` (`true`
means success); the result is the list of invocation times together with
the terminal outcome. -/
def runRetry (action : ℕ → Bool) (backoff_delay : ℕ) :
    ℕ → ℕ → List ℕ × StageOutcome
  | 0, _ => ([], .failed)
  | fuel + 1, t =>
      if action t then ([t], .succeeded)
      else if fuel = 0 then ([t], .failed)
      else
        let rest := runRetry action backoff_delay fuel (t + backoff_delay)
        (t :: rest.1, rest.2)

/-- Modelled from the spec: one stage run under the configured policy.
The spec identifies the configured budget with the externally observed
retry policy of 3 attempts and a 60-unit delay, so the total attempt
budget is the configured value 3 of `standard_retry` and the delay its
configured 60. -/
def standardStageRun (action : ℕ → Bool) : List ℕ × StageOutcome :=
  runRetry action standard_retry.delay standard_retry.max_retries 0

/-- The four pipeline stages, in the source naming of the ops of
pipeline.py lines 20, 29, 38, 48. -/
inductive Stage where
  | scrape_telegram_data : Stage
  | load_raw_to_postgres : Stage
  | run_dbt_transformations : Stage
  | run_yolo_enrichment : Stage
deriving DecidableEq

/-- The dependency chain wired by `medical_warehouse_pipeline`
(pipeline.py lines 53 to 60): each op consumes the status of its
predecessor, so the execution order is scrape, load, transform, enrich. -/
def stageOrder : List Stage :=
  [.scrape_telegram_data, .load_raw_to_postgres,
   .run_dbt_transformations, .run_yolo_enrichment]

/-- Modelled from the spec: the orchestration engine that walks the wired
dependency chain is the external framework, not repository source.  Per
the spec, each stage transition is gated by its Stage Runner outcome: on
`succeeded` the run advances to the next stage, on terminal `failed` the
run halts and no later stage executes.  `result s` is the terminal Stage
Runner outcome of stage `s`; the value is the list of invoked stages in
order, together with the final pipeline outcome. -/
def runStages (result : Stage → StageOutcome) :
    List Stage → List Stage × StageOutcome
  | [] => ([], .succeeded)
  | s :: rest =>
      match result s with
      | .succeeded =>
          let r := runStages result rest
          (s :: r.1, r.2)
      | .failed => ([s], .failed)

/-- One orchestrator run of the wired pipeline
(pipeline.py lines 53 to 60 with the spec-modelled engine). -/
def medical_warehouse_pipeline (result : Stage → StageOutcome) :
    List Stage × StageOutcome :=
  runStages result stageOrder


/- ──────────────────────────────────────────────────────────────────────
   Helper lemmas for the classifier
   ────────────────────────────────────────────────────────────────────── -/

/-- The detected class identifiers of a detection list. -/
def clsIds (D : List Detection) : List ℤ :=
  D.map fun d => pyInt d.cls

theorem has_person_iff (D : List Detection) :
    has_person D = true ↔ ∃ d ∈ D, pyInt d.cls = 0 := by
  simp [has_person, List.any_eq_true]

theorem has_product_iff (D : List Detection) :
    has_product D = true ↔ ∃ d ∈ D, pyInt d.cls = 39 ∨ pyInt d.cls = 41 := by
  simp [has_product, List.any_eq_true]

theorem has_person_mem (D : List Detection) :
    has_person D = true ↔ (0 : ℤ) ∈ clsIds D := by
  simp [has_person_iff, clsIds, List.mem_map]

theorem has_product_mem (D : List Detection) :
    has_product D = true ↔ (39 : ℤ) ∈ clsIds D ∨ (41 : ℤ) ∈ clsIds D := by
  simp [has_product_iff, clsIds, List.mem_map]
  constructor
  · rintro ⟨d, hd, h | h⟩
    · exact Or.inl ⟨d, hd, h⟩
    · exact Or.inr ⟨d, hd, h⟩
  · rintro (⟨d, hd, h⟩ | ⟨d, hd, h⟩)
    · exact ⟨d, hd, Or.inl h⟩
    · exact ⟨d, hd, Or.inr h⟩

theorem has_person_perm {D1 D2 : List Detection} (h : D1.Perm D2) :
    has_person D1 = has_person D2 := by
  refine Bool.eq_iff_iff.mpr ?_
  rw [has_person_iff, has_person_iff]
  constructor <;> rintro ⟨d, hd, hc⟩
  · exact ⟨d, h.mem_iff.mp hd, hc⟩
  · exact ⟨d, h.mem_iff.mpr hd, hc⟩

theorem has_product_perm {D1 D2 : List Detection} (h : D1.Perm D2) :
    has_product D1 = has_product D2 := by
  refine Bool.eq_iff_iff.mpr ?_
  rw [has_product_iff, has_product_iff]
  constructor <;> rintro ⟨d, hd, hc⟩
  · exact ⟨d, h.mem_iff.mp hd, hc⟩
  · exact ⟨d, h.mem_iff.mpr hd, hc⟩

theorem classify_label_congr {D1 D2 : List Detection}
    (hp : has_person D1 = has_person D2)
    (hq : has_product D1 = has_product D2) :
    classify_label D1 = classify_label D2 := by
  rw [classify_label, classify_label, hp, hq]

/- ──────────────────────────────────────────────────────────────────────
   Claims about the Detection Classifier
   ────────────────────────────────────────────────────────────────────── -/

/-- C2: for every detection list D the label is "promotional" when D has
both a subject-class (person, id 0) and a product-class (bottle 39 or cup
41) detection, "product_display" when only a product-class one,
"lifestyle" when only a subject-class one, "other" otherwise (in
particular for the empty list); and the full detection list is returned
unmodified alongside the label. -/
theorem claim_C2_classifier_cases (D : List Detection) :
    ((∃ d ∈ D, pyInt d.cls = 0) →
      (∃ d ∈ D, pyInt d.cls = 39 ∨ pyInt d.cls = 41) →
      classify_label D = "promotional") ∧
    ((∃ d ∈ D, pyInt d.cls = 39 ∨ pyInt d.cls = 41) →
      (¬ ∃ d ∈ D, pyInt d.cls = 0) →
      classify_label D = "product_display") ∧
    ((∃ d ∈ D, pyInt d.cls = 0) →
      (¬ ∃ d ∈ D, pyInt d.cls = 39 ∨ pyInt d.cls = 41) →
      classify_label D = "lifestyle") ∧
    ((¬ ∃ d ∈ D, pyInt d.cls = 0) →
      (¬ ∃ d ∈ D, pyInt d.cls = 39 ∨ pyInt d.cls = 41) →
      classify_label D = "other") ∧
    classify_label [] = "other" ∧
    (∀ model image_path, model image_path = Except.ok D →
      detect_and_classify model image_path
        = Except.ok (classify_label D, D)) := by
  refine ⟨?_, ?_, ?_, ?_, by decide, ?_⟩
  · intro h1 h2
    rw [← has_person_iff] at h1
    rw [← has_product_iff] at h2
    simp [classify_label, h1, h2]
  · intro h2 h1
    rw [← has_product_iff] at h2
    have h1b : has_person D = false := by
      cases hb : has_person D
      · rfl
      · exact absurd ((has_person_iff D).mp hb) h1
    simp [classify_label, h1b, h2]
  · intro h1 h2
    rw [← has_person_iff] at h1
    have h2b : has_product D = false := by
      cases hb : has_product D
      · rfl
      · exact absurd ((has_product_iff D).mp hb) h2
    simp [classify_label, h1, h2b]
  · intro h1 h2
    have h1b : has_person D = false := by
      cases hb : has_person D
      · rfl
      · exact absurd ((has_person_iff D).mp hb) h1
    have h2b : has_product D = false := by
      cases hb : has_product D
      · rfl
      · exact absurd ((has_product_iff D).mp hb) h2
    simp [classify_label, h1b, h2b]
  · intro model image_path h
    simp [detect_and_classify, h]

/-- Witness for C2 at the spec example `[cup, conf .7]` and at an empty
and a mixed list. -/
theorem claim_C2_witness :
    classify_label [⟨0, 0, 1, 1, 7/10, 41⟩] = "product_display" ∧
    classify_label [⟨0, 0, 1, 1, 7/10, 0⟩, ⟨0, 0, 1, 1, 1/2, 39⟩]
      = "promotional" ∧
    detect_and_classify (fun _ => Except.ok [⟨0, 0, 1, 1, 7/10, 41⟩]) "p"
      = Except.ok ("product_display", [⟨0, 0, 1, 1, 7/10, 41⟩]) := by
  refine ⟨?_, ?_, ?_⟩
  · exact (claim_C2_classifier_cases [⟨0, 0, 1, 1, 7/10, 41⟩]).2.1
      (by decide) (by decide)
  · exact (claim_C2_classifier_cases
      [⟨0, 0, 1, 1, 7/10, 0⟩, ⟨0, 0, 1, 1, 1/2, 39⟩]).1 (by decide) (by decide)
  · have hl : classify_label [⟨0, 0, 1, 1, 7/10, 41⟩] = "product_display" :=
      (claim_C2_classifier_cases [⟨0, 0, 1, 1, 7/10, 41⟩]).2.1
        (by decide) (by decide)
    have h := ((claim_C2_classifier_cases
      [⟨0, 0, 1, 1, 7/10, 41⟩]).2.2.2.2.2
      (fun _ => Except.ok [⟨0, 0, 1, 1, 7/10, 41⟩]) "p" rfl)
    rw [h, hl]

/-- C7: classify returns exactly one label from the four-element label
set, is a pure function (equal inputs give the equal label), and is
invariant under permutation of the detection list. -/
theorem claim_C7_classifier_total_perm (D : List Detection) :
    (classify_label D = "promotional" ∨ classify_label D = "product_display"
      ∨ classify_label D = "lifestyle" ∨ classify_label D = "other") ∧
    classify_label D = classify_label D ∧
    (∀ D2, D.Perm D2 → classify_label D2 = classify_label D) := by
  refine ⟨?_, rfl, ?_⟩
  · cases hp : has_person D <;> cases hq : has_product D <;>
      simp [classify_label, hp, hq]
  · intro D2 h
    exact classify_label_congr (has_person_perm h.symm) (has_product_perm h.symm)

/-- Witness for C7 on a concrete list and a permutation of it. -/
theorem claim_C7_witness :
    classify_label [⟨0, 0, 1, 1, 1/2, 39⟩, ⟨0, 0, 1, 1, 7/10, 0⟩]
      = classify_label [⟨0, 0, 1, 1, 7/10, 0⟩, ⟨0, 0, 1, 1, 1/2, 39⟩] :=
  (claim_C7_classifier_total_perm
    [⟨0, 0, 1, 1, 7/10, 0⟩, ⟨0, 0, 1, 1, 1/2, 39⟩]).2.2
    [⟨0, 0, 1, 1, 1/2, 39⟩, ⟨0, 0, 1, 1, 7/10, 0⟩]
    (List.Perm.swap (⟨0, 0, 1, 1, 1/2, 39⟩ : Detection)
      (⟨0, 0, 1, 1, 7/10, 0⟩ : Detection) [])

/-- C10: the label depends only on the multiset of detected class
identifiers: two detection lists with the same class-id multiset but
arbitrarily different confidences and bounding boxes classify alike. -/
theorem claim_C10_label_noninterference (D1 D2 : List Detection)
    (h : (clsIds D1 : Multiset ℤ) = (clsIds D2 : Multiset ℤ)) :
    classify_label D1 = classify_label D2 := by
  have hperm : (clsIds D1).Perm (clsIds D2) := Multiset.coe_eq_coe.mp h
  have hp : has_person D1 = has_person D2 := by
    refine Bool.eq_iff_iff.mpr ?_
    rw [has_person_mem, has_person_mem]
    exact hperm.mem_iff
  have hq : has_product D1 = has_product D2 := by
    refine Bool.eq_iff_iff.mpr ?_
    rw [has_product_mem, has_product_mem]
    constructor <;> rintro (hm | hm)
    · exact Or.inl (hperm.mem_iff.mp hm)
    · exact Or.inr (hperm.mem_iff.mp hm)
    · exact Or.inl (hperm.mem_iff.mpr hm)
    · exact Or.inr (hperm.mem_iff.mpr hm)
  exact classify_label_congr hp hq

/-- Witness for C10: same class ids, different boxes and confidences. -/
theorem claim_C10_witness :
    classify_label [⟨0, 0, 1, 1, 7/10, 39⟩]
      = classify_label [⟨5, 6, 7, 8, 1/9, 39⟩] :=
  claim_C10_label_noninterference
    [⟨0, 0, 1, 1, 7/10, 39⟩] [⟨5, 6, 7, 8, 1/9, 39⟩] (by decide)

/-- C9: an image whose detection call returns the empty detection list
contributes no rows at all to the enrichment output (one row is emitted
per retained detection, none per image), so its derived label, which
would be "other", is recorded nowhere. -/
theorem claim_C9_empty_detections_no_rows
    (model : String → Except Unit (List Detection)) (names : ℤ → String)
    (channel img_name : String)
    (h : model (img_path channel img_name) = Except.ok []) :
    imageContribution model names channel img_name = Except.ok [] ∧
    classify_label [] = "other" := by
  constructor
  · simp [imageContribution, detect_and_classify, h, imageRows]
  · decide

/-- Witness for C9 with a model that detects nothing. -/
theorem claim_C9_witness :
    imageContribution (fun _ => Except.ok []) (fun _ => "object") "ch" "7.jpg"
      = Except.ok [] ∧ classify_label [] = "other" :=
  claim_C9_empty_detections_no_rows
    (fun _ => Except.ok []) (fun _ => "object") "ch" "7.jpg" rfl

/- ──────────────────────────────────────────────────────────────────────
   C6: per-image detection failure during enrichment
   ────────────────────────────────────────────────────────────────────── -/

/-- A class-name table for concrete runs. -/
def defaultNames : ℤ → String := fun _ => "object"

/-- A model that raises on one particular image and detects nothing
elsewhere. -/
def failingYolo : String → Except Unit (List Detection) := fun p =>
  if p = "data/raw/images/ch/a.jpg" then Except.error () else Except.ok []

theorem enrichImages_error_of_mem
    (model : String → Except Unit (List Detection)) (names : ℤ → String)
    (channel : String) {imgs : List String} {img : String}
    (himg : img ∈ imgs)
    (hfail : model (img_path channel img) = Except.error ()) :
    enrichImages model names channel imgs = Except.error () := by
  induction imgs with
  | nil => cases himg
  | cons hd tl ih =>
    rcases List.mem_cons.mp himg with rfl | hmem
    · simp [enrichImages, imageContribution, detect_and_classify, hfail]
    · cases hc : imageContribution model names channel hd with
      | error e => cases e; simp [enrichImages, hc]
      | ok rows => simp [enrichImages, hc, ih hmem]

/-- C6 counterexample: the enrichment loop has no per-image exception
handling, so one failing detection aborts the whole run instead of being
skipped.  With a model that raises on `a.jpg`, the run over
`["a.jpg", "b.jpg"]` ends in an error (and `b.jpg` is never reached),
while the same run without the failing image succeeds. -/
theorem claim_C6_counterexample :
    enrichRun failingYolo defaultNames [("ch", ["a.jpg", "b.jpg"])]
      = Except.error () ∧
    enrichRun failingYolo defaultNames [("ch", ["b.jpg"])]
      = Except.ok [] := by
  constructor <;> rfl

/-- C6 amended: a per-image detection failure is not skipped or logged;
the raised error propagates and aborts the enrichment run as a whole —
whenever any listed image of any listed channel has a failing detection
call, the entire run returns that error. -/
theorem claim_C6_amended_failure_aborts
    (model : String → Except Unit (List Detection)) (names : ℤ → String)
    (listing : List (String × List String)) (channel : String)
    (imgs : List String) (img : String)
    (hmem : (channel, imgs) ∈ listing) (himg : img ∈ imgs)
    (hfail : model (img_path channel img) = Except.error ()) :
    enrichRun model names listing = Except.error () := by
  induction listing with
  | nil => cases hmem
  | cons hd tl ih =>
    rcases List.mem_cons.mp hmem with heq | hmem2
    · subst heq
      simp [enrichRun, enrichImages_error_of_mem model names channel himg hfail]
    · obtain ⟨c, is⟩ := hd
      cases hc : enrichImages model names c is with
      | error e => cases e; simp [enrichRun, hc]
      | ok rows => simp [enrichRun, hc, ih hmem2]

/-- Witness for the amended C6 at the concrete failing model. -/
theorem claim_C6_witness :
    enrichRun failingYolo defaultNames [("ch", ["a.jpg", "b.jpg"])]
      = Except.error () :=
  claim_C6_amended_failure_aborts failingYolo defaultNames
    [("ch", ["a.jpg", "b.jpg"])] "ch" ["a.jpg", "b.jpg"] "a.jpg"
    (by simp) (by simp) rfl

/- ──────────────────────────────────────────────────────────────────────
   Claims about the Idempotent Raw Store
   ────────────────────────────────────────────────────────────────────── -/

/-- A concrete canonical record for witnesses. -/
def rec0 : MessageRec :=
  ⟨42, "pharma_news", none, none, none, 0, 0, false, none⟩

/-- C1: upserting a canonical record whose key is not yet stored, then
upserting the very same record again, leaves exactly one stored row for
the key; the first call inserts (incrementing `inserted`), the second is
a no-op duplicate (incrementing `skipped`) that leaves the whole store,
hence every field of the stored row including `loaded_at`, unchanged even
when the second call happens at a different time. -/
theorem claim_C1_upsert_idempotent (st : LoadState) (r : MessageRec)
    (t1 t2 : ℕ) (h : keyCount st.store r = 0) :
    (upsertState st r t1).inserted = st.inserted + 1 ∧
    (upsertState st r t1).skipped = st.skipped ∧
    (upsertState (upsertState st r t1) r t2).skipped
      = (upsertState st r t1).skipped + 1 ∧
    (upsertState (upsertState st r t1) r t2).inserted
      = (upsertState st r t1).inserted ∧
    (upsertState (upsertState st r t1) r t2).store
      = (upsertState st r t1).store ∧
    keyCount (upsertState (upsertState st r t1) r t2).store r = 1 := by
  have hnone : ∀ row ∈ st.store, ¬ (sameKey row r = true) :=
    List.countP_eq_zero.mp h
  have hany : st.store.any (fun row => sameKey row r) = false := by
    refine Bool.eq_false_iff.mpr fun hb => ?_
    obtain ⟨row, hrow, hp⟩ := List.any_eq_true.mp hb
    exact hnone row hrow hp
  have hkey : sameKey (toRow r t1) r = true := by simp [sameKey, toRow]
  have hany2 :
      (st.store ++ [toRow r t1]).any (fun row => sameKey row r) = true :=
    List.any_eq_true.mpr ⟨toRow r t1, by simp, hkey⟩
  have h1 : upsertState st r t1
      = { st with store := st.store ++ [toRow r t1],
                  inserted := st.inserted + 1 } := by
    simp [upsertState, insertOnConflictDoNothing, hany]
  have h2 :
      upsertState
        { st with store := st.store ++ [toRow r t1],
                  inserted := st.inserted + 1 } r t2
      = { st with store := st.store ++ [toRow r t1],
                  inserted := st.inserted + 1,
                  skipped := st.skipped + 1 } := by
    simp [upsertState, insertOnConflictDoNothing, hany2]
  have h0 : st.store.countP (fun row => sameKey row r) = 0 := h
  refine ⟨by rw [h1], by rw [h1], by rw [h1, h2], by rw [h1, h2],
    by rw [h1, h2], ?_⟩
  rw [h1, h2]
  simp [keyCount, List.countP_append, hkey, h0]

/-- Witness for C1: double upsert of `rec0` into the empty store. -/
theorem claim_C1_witness :
    keyCount (⟨[], 0, 0⟩ : LoadState).store rec0 = 0 ∧
    (upsertState (upsertState ⟨[], 0, 0⟩ rec0 1) rec0 2).store
      = (upsertState ⟨[], 0, 0⟩ rec0 1).store ∧
    keyCount (upsertState (upsertState ⟨[], 0, 0⟩ rec0 1) rec0 2).store rec0
      = 1 :=
  ⟨by decide,
    (claim_C1_upsert_idempotent ⟨[], 0, 0⟩ rec0 1 2 (by decide)).2.2.2.2.1,
    (claim_C1_upsert_idempotent ⟨[], 0, 0⟩ rec0 1 2 (by decide)).2.2.2.2.2⟩

/-- A raw record lacking `message_id`, for the C5 counterexample. -/
def missingIdMsg : RawMsg :=
  ⟨none, some "pharma_news", none, none, none, none, none, none, none⟩

/-- C5 counterexample: a raw record missing `message_id` is dropped by
the `continue` at load_raw_to_pg.py line 87 without touching any counter:
from the empty state, the store stays empty but `skipped` stays 0 instead
of being incremented to 1 as the claim requires. -/
theorem claim_C5_counterexample :
    (processRecord ⟨[], 0, 0⟩ 5 missingIdMsg).store = [] ∧
    (processRecord ⟨[], 0, 0⟩ 5 missingIdMsg).skipped = 0 ∧
    ¬ ((processRecord ⟨[], 0, 0⟩ 5 missingIdMsg).skipped
        = (⟨[], 0, 0⟩ : LoadState).skipped + 1) := by
  refine ⟨rfl, rfl, ?_⟩
  decide

/-- C5 amended: a raw record missing `message_id` or `channel_username`
never reaches the store, but it is dropped silently: the whole loader
state, including the `skipped` total, is left unchanged — the rejection
is not counted. -/
theorem claim_C5_amended_silent_drop (st : LoadState) (now : ℕ)
    (msg : RawMsg)
    (h : msg.message_id = none ∨ msg.channel_name = none) :
    processRecord st now msg = st := by
  rcases h with h | h
  · simp [processRecord, h]
  · cases hm : msg.message_id <;> simp [processRecord, h, hm]

/-- Witness for the amended C5 at the concrete malformed record. -/
theorem claim_C5_witness :
    (missingIdMsg.message_id = none ∨ missingIdMsg.channel_name = none) ∧
    processRecord ⟨[], 0, 0⟩ 5 missingIdMsg = ⟨[], 0, 0⟩ :=
  ⟨by decide, claim_C5_amended_silent_drop ⟨[], 0, 0⟩ 5 missingIdMsg
    (by decide)⟩

/-- C8: an unparsable file is rejected in its entirety with exactly one
diagnostic and no change to the store or the counters, and the final
state of a whole run is the state obtained from the parsed files alone —
a malformed file never aborts the run, and records from the other files
are still committed and counted. -/
theorem claim_C8_invalid_file_isolated :
    (∀ (st : LoadState) (now : ℕ) (name : String),
      processFile st now ⟨name, .invalid⟩ = (st, [invalidFileDiag name])) ∧
    (∀ (st : LoadState) (now : ℕ) (files : List FileInput),
      (loadRun st now files).1
        = (loadRun st now (files.filter fileParsed)).1) := by
  constructor
  · intro st now name
    rfl
  · intro st now files
    induction files generalizing st with
    | nil => rfl
    | cons f fs ih =>
      cases hc : f.content with
      | invalid =>
        have hparsed : fileParsed f = false := by simp [fileParsed, hc]
        simp [loadRun, processFile, hc, List.filter_cons, hparsed, ih]
      | valid msgs =>
        have hparsed : fileParsed f = true := by simp [fileParsed, hc]
        simp [loadRun, processFile, hc, List.filter_cons, hparsed, ih]

/- ──────────────────────────────────────────────────────────────────────
   Claims about the Stage Runner and the Orchestrator
   ────────────────────────────────────────────────────────────────────── -/

/-- C3: under the configured policy a stage action that fails on every
invocation is invoked exactly `max_attempts` = 3 times in total, at times
0, 60, 120 (a fixed 60-unit delay between consecutive attempts, never
exceeding the budget), and the run surfaces a terminal failed outcome. -/
theorem claim_C3_retry_exhaustion (action : ℕ → Bool)
    (h : ∀ t, action t = false) :
    standardStageRun action = ([0, 60, 120], .failed) ∧
    (standardStageRun action).1.length = standard_retry.max_retries := by
  have hrun : standardStageRun action = ([0, 60, 120], .failed) := by
    simp [standardStageRun, standard_retry, runRetry, h]
  exact ⟨hrun, by rw [hrun]; rfl⟩

/-- Witness for C3 at the constantly failing action. -/
theorem claim_C3_witness :
    standardStageRun (fun _ => false) = ([0, 60, 120], .failed) ∧
    (standardStageRun (fun _ => false)).1.length
      = standard_retry.max_retries :=
  claim_C3_retry_exhaustion (fun _ => false) (fun _ => rfl)

theorem runStages_invoked_front (result : Stage → StageOutcome) (l : List Stage) :
    ∃ t, (runStages result l).1 ++ t = l := by
  induction l with
  | nil => exact ⟨[], rfl⟩
  | cons s rest ih =>
    cases hr : result s with
    | succeeded =>
      obtain ⟨t, ht⟩ := ih
      exact ⟨t, by simp [runStages, hr, ht]⟩
    | failed => exact ⟨rest, by simp [runStages, hr]⟩

theorem runStages_failed_outcome (result : Stage → StageOutcome)
    (l : List Stage) :
    ∀ s ∈ (runStages result l).1, result s = .failed →
      (runStages result l).2 = .failed := by
  induction l with
  | nil => intro s hs; simp [runStages] at hs
  | cons a rest ih =>
    intro s hs hf
    cases hr : result a with
    | succeeded =>
      rw [show (runStages result (a :: rest)).1
          = a :: (runStages result rest).1 by simp [runStages, hr]] at hs
      rcases List.mem_cons.mp hs with rfl | hmem
      · rw [hf] at hr; cases hr
      · simpa [runStages, hr] using ih s hmem hf
    | failed => simp [runStages, hr]

theorem runStages_failed_last (result : Stage → StageOutcome)
    (l : List Stage) :
    ∀ s ∈ (runStages result l).1, result s = .failed →
      ∃ p, (runStages result l).1 = p ++ [s] ∧
        ∀ x ∈ p, result x = .succeeded := by
  induction l with
  | nil => intro s hs; simp [runStages] at hs
  | cons a rest ih =>
    intro s hs hf
    cases hr : result a with
    | succeeded =>
      rw [show (runStages result (a :: rest)).1
          = a :: (runStages result rest).1 by simp [runStages, hr]] at hs ⊢
      rcases List.mem_cons.mp hs with rfl | hmem
      · rw [hf] at hr; cases hr
      · obtain ⟨p, hp, hall⟩ := ih s hmem hf
        refine ⟨a :: p, by rw [hp]; rfl, ?_⟩
        intro x hx
        rcases List.mem_cons.mp hx with rfl | hx2
        · exact hr
        · exact hall x hx2
    | failed =>
      rw [show (runStages result (a :: rest)).1 = [a] by
        simp [runStages, hr]] at hs ⊢
      rcases List.mem_singleton.mp hs with rfl
      exact ⟨[], rfl, by simp⟩

/-- C4: in one orchestrator run the invoked stages form a prefix of the
strict order scrape, load, transform, enrich; an invoked stage with a
terminal failure makes the run outcome failed, is the last invoked stage
(every stage invoked before it succeeded, none is invoked after); and in
particular a terminal loading failure means the transforming and the
enriching stage are never invoked in that run. -/
theorem claim_C4_pipeline_halts (result : Stage → StageOutcome) :
    (∃ t, (medical_warehouse_pipeline result).1 ++ t = stageOrder) ∧
    (∀ s ∈ (medical_warehouse_pipeline result).1, result s = .failed →
      (medical_warehouse_pipeline result).2 = .failed ∧
      ∃ p, (medical_warehouse_pipeline result).1 = p ++ [s] ∧
        ∀ x ∈ p, result x = .succeeded) ∧
    (result .load_raw_to_postgres = .failed →
      Stage.run_dbt_transformations ∉ (medical_warehouse_pipeline result).1 ∧
      Stage.run_yolo_enrichment ∉ (medical_warehouse_pipeline result).1) := by
  refine ⟨runStages_invoked_front result stageOrder, ?_, ?_⟩
  · intro s hs hf
    exact ⟨runStages_failed_outcome result stageOrder s hs hf,
      runStages_failed_last result stageOrder s hs hf⟩
  · intro hload
    cases h1 : result .scrape_telegram_data with
    | succeeded =>
      constructor <;>
        simp [medical_warehouse_pipeline, stageOrder, runStages, h1, hload]
    | failed =>
      constructor <;>
        simp [medical_warehouse_pipeline, stageOrder, runStages, h1]

/-- A stage-outcome assignment where only loading fails. -/
def loadFails : Stage → StageOutcome :=
  fun s =>
    match s with
    | .load_raw_to_postgres => .failed
    | _ => .succeeded

/-- Witness for C4: when loading fails terminally, transforming and
enriching are not invoked and the run outcome is failed. -/
theorem claim_C4_witness :
    (Stage.run_dbt_transformations
        ∉ (medical_warehouse_pipeline loadFails).1 ∧
      Stage.run_yolo_enrichment ∉ (medical_warehouse_pipeline loadFails).1) ∧
    (medical_warehouse_pipeline loadFails).2 = .failed :=
  ⟨(claim_C4_pipeline_halts loadFails).2.2 rfl,
    ((claim_C4_pipeline_halts loadFails).2.1 .load_raw_to_postgres
      (by decide) rfl).1⟩
